import Mathlib

/-!
Shallow embedding of the BFAST per-pixel decomposition
(`bfast/python/base_nans.py`, class `BFASTPython`).

Modelling conventions:
* Data values are integers (`ℤ`): the source's floating-point observations
  only ever undergo subtraction inside `fit_single`, and every claim below
  is structural, so a subring of the reals suffices and keeps every
  definition kernel-computable.  A full-length ("original space") series is
  a `List (Option ℤ)`; `none` is the missing sentinel (NaN in the source).
  Compacted-space vectors, which by construction contain no missing values,
  are plain `List ℤ`.
* The time axis, the design matrices, the significance level `level`, the
  bandwidth `h` and the p-values returned by the structural-change test are
  rationals (`ℚ`); the embedding never performs rational arithmetic on
  them (they are built, compared, and passed to collaborators only).
* The external collaborators (the STL seed decomposition, the EFP
  structural-change test, the optimal breakpoint search, and the
  least-squares solver; spec section 6 treats them as black boxes, and their
  code is not part of the verified source) are fields of a `Collab`
  structure: arbitrary functions with the collaborators' interfaces.
* numpy fancy indexing `v[idx]` is modelled by `npIndex`, which reads each
  position with a default; the source raises `IndexError` out of range and
  every theorem below stays in range.
* The helper module `utils.py` is not part of the source tree; its four
  functions (`different`, `omit_nans`, `partition_matrix`, `create_nan_map`)
  are modelled from the spec's words (sections 3, 4.1, 4.4, 9) and each
  carries a doc comment saying so.
-/

namespace BFASTPython

/-- Configuration of the `BFASTPython` object (constructor parameters
`frequency, h, season_type, max_iter, max_breaks, level`). -/
structure Config where
  frequency : ℕ
  h : ℚ
  season_type : String
  max_iter : ℕ
  max_breaks : Option ℕ
  level : ℚ
deriving DecidableEq, Repr

/-- External collaborators (spec section 6): the STL seasonal seed, the EFP
structural-change test returning a p-value, the optimal breakpoint search
returning compacted-space indices, and the least-squares fit returning
fitted values.  `cos2pi` and `sin2pi` stand in for the library functions
`x ↦ cos(2*pi*x)` and `x ↦ sin(2*pi*x)` used by the harmonic seasonal
model, whose floating-point values no claim depends on. -/
structure Collab where
  stl : List (Option ℤ) → ℕ → List ℤ
  efp : List (List ℚ) → List ℤ → ℚ → ℚ
  search : List (List ℚ) → List ℤ → ℚ → Option ℕ → List ℕ
  ols : List (List ℚ) → List ℤ → List ℤ
  cos2pi : ℚ → ℚ
  sin2pi : ℚ → ℚ

/-- numpy fancy indexing `v[idx]`: read each listed position (with a default
`d` standing where the source would raise `IndexError`). -/
def npIndex (v : List α) (idx : List ℕ) (d : α) : List α :=
  idx.map (fun i => v.getD i d)

/-- Modelled from the spec (section 3, missing-data indexer, for
`utils.create_nan_map`): the ordered list of original indices of the
non-missing observations. -/
def create_nan_map (y : List (Option ℤ)) : List ℕ :=
  (List.range y.length).filter (fun i => (y.getD i none).isSome)

/-- Compacted observation vector `Yt = Yt_n[nan_map]` (line 186). -/
def compactVals (y : List (Option ℤ)) : List ℤ :=
  (create_nan_map y).map (fun i => (y.getD i none).getD 0)

/-- Modelled from the spec (section 9, for `utils.different`): structural
inequality of two breakpoint index arrays — same length and same values in
order means not different. -/
def different (a b : List ℕ) : Bool :=
  decide (a ≠ b)

/-- Modelled from the spec (section 4.1, for `utils.omit_nans`): drop the
positions where either series is missing.  In this embedding the compacted
vectors carry plain numbers, which cannot be missing, so the function is
the identity pair. -/
def omit_nans (t : List ℚ) (v : List ℤ) : List ℚ × List ℤ :=
  (t, v)

/-- Modelled from the spec (section 3, for `Breakpoints.breakfactor`): each
breakpoint marks the first index of a new regime, so position `i` is
labelled with the number of breakpoints that are `≤ i`. -/
def breakfactor (bps : List ℕ) (n : ℕ) : List ℕ :=
  (List.range n).map (fun i => (bps.filter (fun b => b ≤ i)).length)

/-- Modelled from the spec (section 4.4, for `utils.partition_matrix`):
block-diagonalize the design matrix per regime — the row of a regime keeps
its regressor columns in that regime's block and is zero elsewhere. -/
def partition_matrix (labels : List ℕ) (X : List (List ℚ)) : List (List ℚ) :=
  let k := labels.foldr Nat.max 0 + 1
  List.zipWith
    (fun l r =>
      List.replicate (l * r.length) (0 : ℚ) ++ r ++
        List.replicate ((k - 1 - l) * r.length) (0 : ℚ))
    labels X

/-- Check used by `statsmodels.add_constant` with its default
`has_constant = skip`: whether some column is constant with all entries
nonzero (numpy `ptp == 0` and `all(x != 0)`; a constant column is all equal
to its first entry, so the nonzero test reduces to the first entry). -/
def hasNonzeroConstCol (M : List (List ℚ)) : Bool :=
  (List.range (M.headD []).length).any (fun c =>
    decide ((M.headD []).getD c 0 ≠ 0)
      && M.all (fun row => decide (row.getD c 0 = (M.headD []).getD c 0)))

/-- `statsmodels.add_constant` on a row matrix: prepend a column of ones
unless a nonzero constant column is already present (default
`prepend = True`, `has_constant = skip`). -/
def addConstant (M : List (List ℚ)) : List (List ℚ) :=
  if hasNonzeroConstCol M then M else M.map (fun r => 1 :: r)

/-- `statsmodels.add_constant` applied to a 1-D vector (the time axis). -/
def addConstantVec (v : List ℚ) : List (List ℚ) :=
  addConstant (v.map (fun x => [x]))

/-- A 1-D vector used directly as the single-column regressor matrix, as in
`sm.OLS(Vt, ti)` (line 229). -/
def colMatrix (v : List ℚ) : List (List ℚ) :=
  v.map (fun x => [x])

/-- Rows of `np.eye n`. -/
def eyeMatrix (n : ℕ) : List (List ℚ) :=
  (List.range n).map (fun i => (List.range n).map (fun j => if i = j then 1 else 0))

/-- `np.row_stack((np.eye(f - 1), np.repeat(-1, f - 1)))` (line 326): the
(f-1)-identity stacked on one row of all -1. -/
def eyeBox (f : ℕ) : List (List ℚ) :=
  eyeMatrix (f - 1) ++ [List.replicate (f - 1) (-1 : ℚ)]

/-- Tiling step of the dummy seasonal design (lines 327-330):
`np.tile(eye_box, (n_boxes, 1))[:nrow]` with
`n_boxes = int(np.ceil(nrow / f))`, which for naturals is
`(n + f - 1) / f`. -/
def dummyBase (f n : ℕ) : List (List ℚ) :=
  List.take n (List.flatten (List.replicate ((n + f - 1) / f) (eyeBox f)))

/-- Dummy seasonal design (lines 326-331): tile `eyeBox` ceil(n/f) times,
truncate to `n` rows, then `add_constant`. -/
def dummySmod (f n : ℕ) : List (List ℚ) :=
  addConstant (dummyBase f n)

/-- One row of the harmonic seasonal design (lines 313-321), for
1-based time position `t`: the three cosine/sine harmonic pairs in the
column order `co, si, co2, si2, co3, si3` of the source's `column_stack`. -/
def harmonicRow (c : Collab) (f : ℕ) (t : ℕ) : List ℚ :=
  let w : ℚ := 1 / (f : ℚ)
  [c.cos2pi ((t : ℚ) * w), c.sin2pi ((t : ℚ) * w),
   c.cos2pi ((t : ℚ) * w * 2), c.sin2pi ((t : ℚ) * w * 2),
   c.cos2pi ((t : ℚ) * w * 3), c.sin2pi ((t : ℚ) * w * 3)]

/-- `BFASTPython.build_seasonal_model` (lines 306-339): builds the seasonal
design matrix for the configured model type, `none` meaning no matrix, and
raises `ValueError` (modelled as `Except.error`) on an unknown type. -/
def build_seasonal_model (cfg : Config) (c : Collab) (ti : List ℚ) :
    Except String (Option (List (List ℚ))) :=
  let nrow := ti.length
  if cfg.season_type = "harmonic" then
    .ok (some ((List.range nrow).map (fun i => harmonicRow c cfg.frequency (i + 1))))
  else if cfg.season_type = "dummy" then
    .ok (some (dummySmod cfg.frequency nrow))
  else if cfg.season_type = "none" then
    .ok none
  else
    .error "Seasonal model is unknown, use harmonic, dummy or none"

/-- Mutable locals of the decomposition loop of `fit_single`
(lines 191-196 and the loop body).  `St` is always bound — the source
assigns it before the loop (line 185).  `Tt` and `Nt` are bound only once
the body has run at least once, hence the `Option`: `none` models the
Python locals being undefined. -/
structure LoopState where
  St : List ℤ
  Vt_bp : List ℕ
  Wt_bp : List ℕ
  CheckTimeTt : List ℕ
  CheckTimeSt : List ℕ
  TtNt : Option (List ℤ × List ℤ)
  i_iter : ℕ
deriving DecidableEq, Repr

/-- Trend section of the loop body (lines 203-240): deseasonalize, gate on
the EFP p-value, search for breakpoints, and fit either a single regression
of the deseasonalized series on the time axis (no breakpoints) or, on the
partitioned design, a regression whose response is the raw observations
`Yt` (line 237).  Returns the fitted trend and the new trend breakpoint
set. -/
def trendStep (cfg : Config) (c : Collab) (ti : List ℚ) (Yt St : List ℤ)
    (nrow : ℕ) : List ℤ × List ℕ :=
  let Vt := List.zipWith (· - ·) Yt St
  let p_Vt := c.efp (addConstantVec ti) Vt cfg.h
  let bp :=
    if p_Vt ≤ cfg.level then
      let tv := omit_nans ti Vt
      c.search (addConstantVec tv.1) tv.2 cfg.h cfg.max_breaks
    else []
  if bp.isEmpty then
    (c.ols (colMatrix ti) Vt, [])
  else
    (c.ols (partition_matrix (breakfactor bp nrow) (addConstantVec ti)) Yt, bp)

/-- Modelled from the spec (section 4.5 steps 1-3): the trend fit of the
Segmented Regression Step always has the deseasonalized series as its
response, in the partitioned case as well.  This is the spec's version of
`trendStep`, kept for comparison with the source's, which fits `Yt` in the
partitioned case. -/
def trendStepSpec (cfg : Config) (c : Collab) (ti : List ℚ) (Yt St : List ℤ)
    (nrow : ℕ) : List ℤ × List ℕ :=
  let Vt := List.zipWith (· - ·) Yt St
  let p_Vt := c.efp (addConstantVec ti) Vt cfg.h
  let bp :=
    if p_Vt ≤ cfg.level then
      let tv := omit_nans ti Vt
      c.search (addConstantVec tv.1) tv.2 cfg.h cfg.max_breaks
    else []
  if bp.isEmpty then
    (c.ols (colMatrix ti) Vt, [])
  else
    (c.ols (partition_matrix (breakfactor bp nrow) (addConstantVec ti)) Vt, bp)

/-- Season section of the loop body (lines 242-279): with model type
`none` the seasonal estimate is reset to zeros and the seasonal breakpoint
set is left untouched (the source does not reassign `Wt_bp` there);
otherwise gate, search, and fit the residual on the (possibly partitioned)
seasonal design.  In the partitioned branch the source already translates
the breakpoints through the index map (`Wt_bp = nan_map[bp_Wt.breakpoints]`,
line 278).  Returns the fitted season and the new seasonal breakpoint
set. -/
def seasonStep (cfg : Config) (c : Collab) (Yt Tt : List ℤ)
    (smodC : List (List ℚ)) (nm : List ℕ) (nrow : ℕ) (wtbp : List ℕ) :
    List ℤ × List ℕ :=
  if cfg.season_type = "none" then
    (List.replicate nrow (0 : ℤ), wtbp)
  else
    let Wt := List.zipWith (· - ·) Yt Tt
    let p_Wt := c.efp smodC Wt cfg.h
    let bpW :=
      if p_Wt ≤ cfg.level then c.search smodC Wt cfg.h cfg.max_breaks else []
    if bpW.isEmpty then
      (c.ols smodC Wt, [])
    else
      (c.ols (partition_matrix (breakfactor bpW nrow) smodC) Wt, npIndex nm bpW 0)

/-- One iteration of the decomposition loop (lines 197-283): save the
previous breakpoint sets, run the trend and season sections, and recompute
the remainder `Nt = Yt - Tt - St`. -/
def bodyStep (cfg : Config) (c : Collab) (ti : List ℚ) (Yt : List ℤ)
    (smodC : List (List ℚ)) (nm : List ℕ) (nrow : ℕ) (s : LoopState) :
    LoopState :=
  let tr := trendStep cfg c ti Yt s.St nrow
  let se := seasonStep cfg c Yt tr.1 smodC nm nrow s.Wt_bp
  let Nt := List.zipWith (· - ·) (List.zipWith (· - ·) Yt tr.1) se.1
  { St := se.1
    Vt_bp := tr.2
    Wt_bp := se.2
    CheckTimeTt := s.Vt_bp
    CheckTimeSt := s.Wt_bp
    TtNt := some (tr.1, Nt)
    i_iter := s.i_iter + 1 }

/-- The `while` condition of line 197, exactly as written in the source:
`(different(Vt_bp, CheckTimeTt) or different(Vt_bp, CheckTimeTt)) and
i_iter < max_iter` — the second disjunct repeats the first and the seasonal
breakpoint set is never consulted. -/
def loopCond (cfg : Config) (s : LoopState) : Bool :=
  (different s.Vt_bp s.CheckTimeTt || different s.Vt_bp s.CheckTimeTt)
    && decide (s.i_iter < cfg.max_iter)

/-- The decomposition `while` loop, with explicit fuel.  The fuel is set to
`max_iter` by the caller, which is enough: the condition requires
`i_iter < max_iter` and the body increments `i_iter`, so the fuel never
runs out before the condition fails. -/
def loopGo (cfg : Config) (body : LoopState → LoopState) :
    ℕ → LoopState → LoopState
  | 0, s => s
  | fuel + 1, s => if loopCond cfg s then loopGo cfg body fuel (body s) else s

/-- Initial seasonal estimate `St_n` (lines 172-180): the STL seed for the
dummy and harmonic models, zeros otherwise. -/
def stSeed (cfg : Config) (c : Collab) (y : List (Option ℤ)) : List ℤ :=
  if cfg.season_type = "dummy" ∨ cfg.season_type = "harmonic" then
    c.stl y cfg.frequency
  else
    List.replicate y.length 0

/-- Compacted seasonal design `smod = smod_n[nan_map]` (lines 187-188); the
empty matrix stands for the absent (`None`) case. -/
def smodCompact (smod_n : Option (List (List ℚ))) (nm : List ℕ) :
    List (List ℚ) :=
  match smod_n with
  | some M => npIndex M nm []
  | none => []

/-- The loop body of one pixel, with the compaction of lines 182-189
applied to the raw inputs. -/
def pixelBody (cfg : Config) (c : Collab) (y : List (Option ℤ))
    (ti_n : List ℚ) (smod_n : Option (List (List ℚ))) :
    LoopState → LoopState :=
  bodyStep cfg c (npIndex ti_n (create_nan_map y) 0) (compactVals y)
    (smodCompact smod_n (create_nan_map y)) (create_nan_map y)
    (compactVals y).length

/-- State before the first loop iteration (lines 191-195): empty breakpoint
sets, sentinel previous sets `[0]` so the first comparison always reports a
difference, iteration counter 1, seasonal estimate compacted from the seed,
and `Tt`, `Nt` still unbound. -/
def pixelInit (cfg : Config) (c : Collab) (y : List (Option ℤ)) : LoopState :=
  { St := npIndex (stSeed cfg c y) (create_nan_map y) 0
    Vt_bp := []
    Wt_bp := []
    CheckTimeTt := [0]
    CheckTimeSt := [0]
    TtNt := none
    i_iter := 1 }

/-- State of the loop locals when the `while` loop of `fit_single` exits. -/
def loopExitState (cfg : Config) (c : Collab) (y : List (Option ℤ))
    (ti_n : List ℚ) (smod_n : Option (List (List ℚ))) : LoopState :=
  loopGo cfg (pixelBody cfg c y ti_n smod_n) cfg.max_iter (pixelInit cfg c y)

/-- Return value of `fit_single` (lines 151-167 and 304): full-length
trend, season and remainder arrays, the two zero-padded breakpoint index
arrays, and the two true breakpoint counts. -/
structure FitResult where
  Tt_n : List (Option ℤ)
  St_n : List (Option ℤ)
  Nt_n : List (Option ℤ)
  Vt_bp_arr : List ℕ
  Wt_bp_arr : List ℕ
  n_Vt_bp : ℕ
  n_Wt_bp : ℕ
deriving DecidableEq, Repr

/-- numpy scatter assignment `arr[idx] = vals` (lines 288, 290, 292):
write `vals k` at position `idx k`, in order. -/
def scatter (arr : List (Option ℤ)) (idx : List ℕ) (vals : List ℤ) :
    List (Option ℤ) :=
  (idx.zip vals).foldl (fun a p => a.set p.1 (some p.2)) arr

/-- Zero padding of a breakpoint index list to length `n`
(lines 299-302). -/
def padZeros (n : ℕ) (v : List ℕ) : List ℕ :=
  v ++ List.replicate (n - v.length) 0

/-- `BFASTPython.fit_single` (lines 139-304): seed the seasonal estimate,
compact away the missing values, run the decomposition loop, then remap
components and breakpoints to original space.  When the loop body never ran,
the source reads the unassigned local `Tt` at line 288 and raises
`NameError`; this is the `Except.error` branch. -/
def fit_single (cfg : Config) (c : Collab) (Yt_n : List (Option ℤ))
    (ti_n : List ℚ) (smod_n : Option (List (List ℚ))) :
    Except String FitResult :=
  let nrow_n := Yt_n.length
  let nm := create_nan_map Yt_n
  let s := loopExitState cfg c Yt_n ti_n smod_n
  match s.TtNt with
  | none => .error "NameError: name Tt is not defined"
  | some tn =>
    let nans : List (Option ℤ) := List.replicate nrow_n none
    .ok
      { Tt_n := scatter nans nm tn.1
        St_n := scatter nans nm s.St
        Nt_n := scatter nans nm tn.2
        Vt_bp_arr := padZeros nrow_n (npIndex nm s.Vt_bp 0)
        Wt_bp_arr := padZeros nrow_n (npIndex nm s.Wt_bp 0)
        n_Vt_bp := s.Vt_bp.length
        n_Wt_bp := s.Wt_bp.length }

/-- `BFASTPython.fit` (lines 82-137): build the seasonal model once, then
apply `fit_single` to every pixel series.  The cube is modelled as the list
of its per-pixel time series. -/
def fit (cfg : Config) (c : Collab) (pixels : List (List (Option ℤ)))
    (ti : List ℚ) : Except String (List FitResult) :=
  match build_seasonal_model cfg c ti with
  | .error e => .error e
  | .ok smod => pixels.mapM (fun y => fit_single cfg c y ti smod)

/-! Concrete configurations and collaborator instances used to evaluate the
program on explicit inputs. -/

/-- The rational 3/20 (the constructor default bandwidth h = 0.15),
written in normal form. -/
def q3_20 : ℚ := ⟨3, 20, by decide, by decide⟩

/-- The rational 1/20 (the default significance level 0.05), written in
normal form. -/
def q1_20 : ℚ := ⟨1, 20, by decide, by decide⟩

/-- Dummy-season configuration with the constructor defaults
`max_iter = 10`, `level = 0.05`, `h = 0.15`. -/
def dummyCfg : Config :=
  { frequency := 2, h := q3_20, season_type := "dummy", max_iter := 10,
    max_breaks := none, level := q1_20 }

/-- Trivial collaborators: zero STL seed, p-value 1 (both gates closed),
empty breakpoint search, and a least-squares stub returning its response
(hence of the contractual length). -/
def trivCollab : Collab :=
  { stl := fun y _ => List.replicate y.length 0
    efp := fun _ _ _ => 1
    search := fun _ _ _ _ => []
    ols := fun _ r => r
    cos2pi := fun _ => 0
    sin2pi := fun _ => 0 }

/-- Collaborators that find the seasonal breakpoint `[2]` (in compacted
space) and no trend breakpoint, used on a series with missing values at all
odd positions.  The length guard keeps the search inside its contract of
returning valid compacted-space indices on every response. -/
def c1Collab : Collab :=
  { stl := fun y _ => List.replicate y.length 0
    efp := fun _ _ _ => 0
    search := fun d r _ _ =>
      if d = List.replicate 5 [(1 : ℚ)] ∧ 2 < r.length then [2] else []
    ols := fun _ r => r
    cos2pi := fun _ => 0
    sin2pi := fun _ => 0 }

/-- Length-10 series, missing at every odd index; its index map is
`[0, 2, 4, 6, 8]`. -/
def c1Series : List (Option ℤ) :=
  [some 1, none, some 2, none, some 3, none, some 4, none, some 5, none]

/-- Time axis 0..9. -/
def c1Ti : List ℚ := [0, 1, 2, 3, 4, 5, 6, 7, 8, 9]

/-- A seasonal design of ten identical rows `[1]`, used as the key by which
`c1Collab.search` recognizes the seasonal design. -/
def c1Smod : Option (List (List ℚ)) := some (List.replicate 10 [(1 : ℚ)])

/-- The full output of `fit_single` on `c1Series` under `c1Collab`. -/
def c1Out : FitResult :=
  { Tt_n := [some 1, none, some 2, none, some 3, none, some 4, none, some 5, none]
    St_n := [some 0, none, some 0, none, some 0, none, some 0, none, some 0, none]
    Nt_n := [some 0, none, some 0, none, some 0, none, some 0, none, some 0, none]
    Vt_bp_arr := [0, 0, 0, 0, 0, 0, 0, 0, 0, 0]
    Wt_bp_arr := [8, 0, 0, 0, 0, 0, 0, 0, 0, 0]
    n_Vt_bp := 0
    n_Wt_bp := 1 }

/-- Collaborators whose trend search finds `[1]` and whose least-squares
stub returns its response, on a series with the constant STL seed 1. -/
def c5Collab : Collab :=
  { stl := fun y _ => List.replicate y.length 1
    efp := fun _ _ _ => 0
    search := fun d _ _ _ =>
      if d = [[(1 : ℚ), 0], [1, 1], [1, 2], [1, 3]] then [1] else []
    ols := fun _ r => r
    cos2pi := fun _ => 0
    sin2pi := fun _ => 0 }

/-- Dummy-season configuration with `max_iter = 4`. -/
def c3Cfg : Config :=
  { frequency := 2, h := q3_20, season_type := "dummy", max_iter := 4,
    max_breaks := none, level := q1_20 }

/-- Gap-free length-4 series. -/
def c3Series : List (Option ℤ) := [some 1, some 2, some 3, some 4]

/-- Time axis 0..3. -/
def c3Ti : List ℚ := [0, 1, 2, 3]

/-- Seasonal design of four identical rows `[9]`, the key by which
`c3Collab` recognizes seasonal calls. -/
def c3Smod : Option (List (List ℚ)) := some (List.replicate 4 [(9 : ℚ)])

/-- Collaborators engineered so that the trend breakpoint set alternates
`[1], [2], [1], [2], ...` forever: the seasonal fit alternates between two
values, making the deseasonalized series alternate, and the trend search
maps the two deseasonalized series to the two breakpoint sets.  Under these
collaborators the loop never converges. -/
def c3Collab : Collab :=
  { stl := fun y _ => List.replicate y.length 0
    efp := fun _ _ _ => 0
    search := fun d r _ _ =>
      if d = List.replicate 4 [(9 : ℚ)] then []
      else if r = [-4, -3, -2, -1] then [2] else [1]
    ols := fun d r =>
      if d = partition_matrix (breakfactor [1] 4) (addConstantVec [0, 1, 2, 3]) then
        [1, 1, 1, 1]
      else if d = partition_matrix (breakfactor [2] 4) (addConstantVec [0, 1, 2, 3]) then
        [2, 2, 2, 2]
      else if r = [0, 1, 2, 3] then [5, 5, 5, 5] else [6, 6, 6, 6]
    cos2pi := fun _ => 0
    sin2pi := fun _ => 0 }

/-- Season-`none` configuration with `max_iter = 1`, under which the loop
body never runs. -/
def c10Cfg : Config :=
  { frequency := 2, h := q3_20, season_type := "none", max_iter := 1,
    max_breaks := none, level := q1_20 }

/-- Gap-free length-3 series. -/
def c10Series : List (Option ℤ) := [some 1, some 2, some 3]

/-- Configuration whose `season_type` is none of the three recognized
strings. -/
def c9BadCfg : Config :=
  { frequency := 2, h := q3_20, season_type := "foo", max_iter := 10,
    max_breaks := none, level := q1_20 }

/-! General lemmas about the embedding. -/

theorem npIndex_length (v : List α) (idx : List ℕ) (d : α) :
    (npIndex v idx d).length = idx.length := by
  simp [npIndex]

theorem compactVals_length (y : List (Option ℤ)) :
    (compactVals y).length = (create_nan_map y).length := by
  simp [compactVals]

theorem create_nan_map_length_le (y : List (Option ℤ)) :
    (create_nan_map y).length ≤ y.length := by
  simpa [create_nan_map] using
    (List.length_filter_le _ (List.range y.length))

theorem mem_create_nan_map (y : List (Option ℤ)) (i : ℕ) :
    i ∈ create_nan_map y ↔ i < y.length ∧ (y.getD i none).isSome := by
  simp [create_nan_map, List.mem_filter, List.mem_range]

theorem create_nan_map_nodup (y : List (Option ℤ)) :
    (create_nan_map y).Nodup :=
  (List.nodup_range _).filter _

theorem create_nan_map_pairwise (y : List (Option ℤ)) :
    (create_nan_map y).Pairwise (· < ·) :=
  (List.pairwise_lt_range _).filter _

/-! Claims C1, C2, C5, C9, C10: direct evaluations and the loop condition. -/

/-- C2: the continuation decision of the decomposition loop (source line
197) collapses to the single structural comparison of the trend breakpoint
set against its value at the start of the iteration (the source performs
that same comparison twice), together with the iteration bound, and is
invariant under arbitrary changes of the seasonal breakpoint state — so a
change in the seasonal breakpoint set alone never makes the loop
continue. -/
theorem c2_loop_condition_trend_only (cfg : Config) (s : LoopState) :
    loopCond cfg s
      = (different s.Vt_bp s.CheckTimeTt && decide (s.i_iter < cfg.max_iter))
    ∧ ∀ w w' : List ℕ,
        loopCond cfg { s with Wt_bp := w, CheckTimeSt := w' } = loopCond cfg s := by
  constructor
  · simp [loopCond]
  · intro w w'
    rfl

/-- C1, evaluation at the failing input: on a series with missing values at
every odd index (index map `[0, 2, 4, 6, 8]`) and a seasonal breakpoint
found at compacted index 2, the reported seasonal breakpoint is 8 — the
index map applied twice (`nan_map[nan_map[2]]`, lines 278 and 296) — while
a single application of the index map, as the claim and spec section 4.6
state, gives 4.  The trend breakpoint path applies the map once. -/
theorem c1_seasonal_breakpoint_mapped_twice :
    fit_single dummyCfg c1Collab c1Series c1Ti c1Smod = .ok c1Out
    ∧ c1Out.Wt_bp_arr = [8, 0, 0, 0, 0, 0, 0, 0, 0, 0] ∧ c1Out.n_Wt_bp = 1
    ∧ npIndex (create_nan_map c1Series) [2] 0 = [4] := by
  exact ⟨rfl, rfl, rfl, rfl⟩

/-- C5, counterexample: with a least-squares stub returning its response
and a trend breakpoint found, the source's trend fit (response `Yt`, line
237) returns the raw observations `[1, 2, 3, 4]`, while the fit whose
response is the deseasonalized series — what the claim asserts for the
non-empty branch — returns `[0, 2, 3, 4] - seed = [0, 1, 2, 3]`.  The two
disagree, so the claim is false in the non-empty branch. -/
theorem c5_counterexample :
    trendStep dummyCfg c5Collab [0, 1, 2, 3] [1, 2, 3, 4] [1, 1, 1, 1] 4
      = ([1, 2, 3, 4], [1])
    ∧ trendStepSpec dummyCfg c5Collab [0, 1, 2, 3] [1, 2, 3, 4] [1, 1, 1, 1] 4
      = ([0, 1, 2, 3], [1])
    ∧ ([1, 2, 3, 4] : List ℤ) ≠ [0, 1, 2, 3] := by
  refine ⟨by decide, by decide, by decide⟩

/-- C5 amended: the new trend estimate is the least-squares fit whose
response is the deseasonalized series when the trend breakpoint set comes
out empty (single regression on the time axis, line 229), but whose
response is the raw observation series `Yt` when the breakpoint set is
non-empty (partitioned design, line 237). -/
theorem c5_trend_fit_response (cfg : Config) (c : Collab) (ti : List ℚ)
    (Yt St : List ℤ) (nrow : ℕ) :
    ((trendStep cfg c ti Yt St nrow).2 = [] →
      (trendStep cfg c ti Yt St nrow).1
        = c.ols (colMatrix ti) (List.zipWith (· - ·) Yt St))
    ∧ ((trendStep cfg c ti Yt St nrow).2 ≠ [] →
      (trendStep cfg c ti Yt St nrow).1
        = c.ols
            (partition_matrix
              (breakfactor (trendStep cfg c ti Yt St nrow).2 nrow)
              (addConstantVec ti))
            Yt) := by
  simp only [trendStep, omit_nans]
  set bp :=
    (if c.efp (addConstantVec ti) (List.zipWith (· - ·) Yt St) cfg.h ≤ cfg.level then
      c.search (addConstantVec ti) (List.zipWith (· - ·) Yt St) cfg.h cfg.max_breaks
    else []) with hbp
  rcases bp with _ | ⟨b, bs⟩
  · simp
  · simp

/-- C5 witness: at the counterexample input, where the searched breakpoint
set is non-empty, the amended theorem evaluates the trend estimate to the
fit of the raw observations. -/
theorem c5_trend_fit_response_witness :
    (trendStep dummyCfg c5Collab [0, 1, 2, 3] [1, 2, 3, 4] [1, 1, 1, 1] 4).1
      = c5Collab.ols
          (partition_matrix
            (breakfactor
              (trendStep dummyCfg c5Collab [0, 1, 2, 3] [1, 2, 3, 4] [1, 1, 1, 1] 4).2 4)
            (addConstantVec [0, 1, 2, 3]))
          [1, 2, 3, 4] :=
  (c5_trend_fit_response dummyCfg c5Collab [0, 1, 2, 3] [1, 2, 3, 4] [1, 1, 1, 1] 4).2
    (by decide)

/-- C9: an unrecognized `season_type` makes `fit` fail with the
configuration error raised by `build_seasonal_model` (line 337) — for every
pixel cube, so before any pixel output is produced — while each of the
three recognized strings makes `build_seasonal_model` succeed (line 98 then
proceeds to the pixel loop). -/
theorem c9_invalid_season_type (cfg : Config) (c : Collab)
    (pixels : List (List (Option ℤ))) (ti : List ℚ) :
    (¬(cfg.season_type = "harmonic" ∨ cfg.season_type = "dummy"
        ∨ cfg.season_type = "none") →
      fit cfg c pixels ti
        = .error "Seasonal model is unknown, use harmonic, dummy or none")
    ∧ ((cfg.season_type = "harmonic" ∨ cfg.season_type = "dummy"
        ∨ cfg.season_type = "none") →
      ∃ m, build_seasonal_model cfg c ti = .ok m) := by
  constructor
  · intro h
    push_neg at h
    obtain ⟨h1, h2, h3⟩ := h
    simp [fit, build_seasonal_model, h1, h2, h3]
  · rintro (h | h | h) <;> simp only [build_seasonal_model, h] <;> simp

/-- C9 witness: the configuration error at the concrete invalid string
`foo` with a one-pixel cube, and success of the model builder for the
recognized string `dummy`. -/
theorem c9_invalid_season_type_witness :
    fit c9BadCfg trivCollab [[some 1]] [0]
      = .error "Seasonal model is unknown, use harmonic, dummy or none"
    ∧ ∃ m, build_seasonal_model dummyCfg trivCollab [0] = .ok m :=
  ⟨(c9_invalid_season_type c9BadCfg trivCollab [[some 1]] [0]).1 (by decide),
   (c9_invalid_season_type dummyCfg trivCollab [[some 1]] [0]).2 (by decide)⟩

/-- C10, counterexample: with `max_iter = 1` and `season_type = none`, the
loop body indeed never runs and `fit_single` fails on the unassigned `Tt`;
but at loop exit the seasonal estimate `St` holds the zeros assigned before
the loop (lines 180 and 185), so the claim's assertion that `St` is never
assigned in the `none` path is false. -/
theorem c10_counterexample :
    (loopExitState c10Cfg trivCollab c10Series [0, 1, 2] none).St = [0, 0, 0]
    ∧ (loopExitState c10Cfg trivCollab c10Series [0, 1, 2] none).TtNt = none
    ∧ (loopExitState c10Cfg trivCollab c10Series [0, 1, 2] none).i_iter = 1
    ∧ fit_single c10Cfg trivCollab c10Series [0, 1, 2] none
        = .error "NameError: name Tt is not defined" := by
  refine ⟨rfl, rfl, rfl, rfl⟩

/-! Lemmas about the decomposition loop. -/

theorem loopGo_preserve (cfg : Config) (body : LoopState → LoopState)
    (P : LoopState → Prop) (hbody : ∀ s, P s → P (body s)) :
    ∀ fuel s, P s → P (loopGo cfg body fuel s) := by
  intro fuel
  induction fuel with
  | zero => intro s hs; exact hs
  | succ f ih =>
    intro s hs
    rw [loopGo]
    split
    · exact ih _ (hbody _ hs)
    · exact hs

theorem bodyStep_TtNt_isSome (cfg : Config) (c : Collab) (ti : List ℚ)
    (Yt : List ℤ) (smodC : List (List ℚ)) (nm : List ℕ) (nrow : ℕ)
    (s : LoopState) :
    ((bodyStep cfg c ti Yt smodC nm nrow s).TtNt).isSome = true := rfl

theorem bodyStep_i_iter (cfg : Config) (c : Collab) (ti : List ℚ)
    (Yt : List ℤ) (smodC : List (List ℚ)) (nm : List ℕ) (nrow : ℕ)
    (s : LoopState) :
    (bodyStep cfg c ti Yt smodC nm nrow s).i_iter = s.i_iter + 1 := rfl

theorem pixelBody_TtNt_isSome (cfg : Config) (c : Collab)
    (y : List (Option ℤ)) (t : List ℚ) (m : Option (List (List ℚ)))
    (s : LoopState) :
    ((pixelBody cfg c y t m s).TtNt).isSome = true := rfl

theorem pixelBody_i_iter (cfg : Config) (c : Collab) (y : List (Option ℤ))
    (t : List ℚ) (m : Option (List (List ℚ))) (s : LoopState) :
    (pixelBody cfg c y t m s).i_iter = s.i_iter + 1 := rfl

theorem loopGo_TtNt_isSome (cfg : Config) (body : LoopState → LoopState)
    (hbody : ∀ s, ((body s).TtNt).isSome = true) :
    ∀ fuel s, (s.TtNt).isSome = true →
      ((loopGo cfg body fuel s).TtNt).isSome = true :=
  loopGo_preserve cfg body (fun s => (s.TtNt).isSome = true) (fun s _ => hbody s)

theorem iterate_i_iter (body : LoopState → LoopState)
    (hinc : ∀ s, (body s).i_iter = s.i_iter + 1) :
    ∀ (k : ℕ) (s : LoopState), ((body^[k]) s).i_iter = s.i_iter + k := by
  intro k
  induction k with
  | zero => intro s; rfl
  | succ n ih =>
    intro s
    rw [Function.iterate_succ_apply, ih (body s), hinc s]
    omega

/-- As long as the trend breakpoint set registers as different at every
check and the iteration counter stays below `max_iter`, the loop performs
exactly the body iterations that take the counter up to `max_iter`. -/
theorem loopGo_runs (cfg : Config) (body : LoopState → LoopState)
    (hinc : ∀ s, (body s).i_iter = s.i_iter + 1) :
    ∀ (n fuel : ℕ) (s : LoopState), n + 1 ≤ fuel →
      s.i_iter + n = cfg.max_iter →
      (∀ k, k < n →
        different ((body^[k]) s).Vt_bp ((body^[k]) s).CheckTimeTt = true) →
      loopGo cfg body fuel s = (body^[n]) s := by
  intro n
  induction n with
  | zero =>
    intro fuel s hf hi _
    match fuel, hf with
    | f + 1, _ =>
      have hni : ¬(s.i_iter < cfg.max_iter) := by omega
      have hc : loopCond cfg s = false := by
        simp [loopCond, hni]
      rw [loopGo, hc]
      simp
  | succ n ih =>
    intro fuel s hf hi hd
    match fuel, hf with
    | f + 1, hf =>
      have h0 := hd 0 (Nat.succ_pos n)
      rw [Function.iterate_zero_apply] at h0
      have hlt : s.i_iter < cfg.max_iter := by omega
      have hc : loopCond cfg s = true := by
        simp [loopCond, h0, hlt]
      rw [loopGo, hc]
      simp only [if_true]
      rw [Function.iterate_succ_apply]
      exact ih f (body s) (by omega) (by rw [hinc]; omega)
        (fun k hk => by
          have hk1 := hd (k + 1) (by omega)
          rwa [Function.iterate_succ_apply] at hk1)

/-- When the loop exit state carries fitted values, `fit_single` returns a
result. -/
theorem fit_single_ok_of_isSome (cfg : Config) (c : Collab)
    (y : List (Option ℤ)) (t : List ℚ) (m : Option (List (List ℚ)))
    (tn : List ℤ × List ℤ)
    (htn : (loopExitState cfg c y t m).TtNt = some tn) :
    ∃ out, fit_single cfg c y t m = .ok out := by
  simp only [fit_single]
  rw [htn]
  exact ⟨_, rfl⟩

/-! Claims C10, C3, C4: loop termination and the degenerate input. -/

/-- C10 amended: with `max_iter ≤ 1` the decomposition loop body executes
zero times (the exit state is the initial state, iteration counter still 1)
and `fit_single` fails reading the unassigned local `Tt` instead of
returning a result; `Tt` and `Nt` are the locals never assigned before
being read, while `St` is assigned before the loop in every path, including
`season_type = none` (lines 180 and 185).  With `max_iter ≥ 2` the body
runs and `fit_single` returns a result. -/
theorem c10_result_needs_max_iter_ge_two (cfg : Config) (c : Collab)
    (y : List (Option ℤ)) (t : List ℚ) (m : Option (List (List ℚ))) :
    (cfg.max_iter ≤ 1 →
      loopExitState cfg c y t m = pixelInit cfg c y
      ∧ fit_single cfg c y t m = .error "NameError: name Tt is not defined")
    ∧ (2 ≤ cfg.max_iter → ∃ out, fit_single cfg c y t m = .ok out) := by
  constructor
  · intro h1
    have hexit : loopExitState cfg c y t m = pixelInit cfg c y := by
      rcases Nat.le_one_iff_eq_zero_or_eq_one.mp h1 with h | h <;>
        simp [loopExitState, loopGo, loopCond, h, pixelInit]
    refine ⟨hexit, ?_⟩
    unfold fit_single
    rw [hexit]
    rfl
  · intro h2
    have hlt : (1 : ℕ) < cfg.max_iter := by omega
    obtain ⟨k, hk⟩ : ∃ k, cfg.max_iter = k + 2 := ⟨cfg.max_iter - 2, by omega⟩
    have hsome : ((loopExitState cfg c y t m).TtNt).isSome = true := by
      unfold loopExitState
      rw [hk, loopGo]
      have hcond : loopCond cfg (pixelInit cfg c y) = true := by
        simp [loopCond, different, pixelInit, hk]
      rw [hcond]
      simp only [if_true]
      exact loopGo_TtNt_isSome cfg _ (fun s => pixelBody_TtNt_isSome cfg c y t m s)
        _ _ (pixelBody_TtNt_isSome cfg c y t m (pixelInit cfg c y))
    obtain ⟨tn, htn⟩ := Option.isSome_iff_exists.mp hsome
    exact fit_single_ok_of_isSome cfg c y t m tn htn

/-- C10 witness: the amended theorem evaluated at `max_iter = 1` (the
`NameError`) and at the default `max_iter = 10` (a result). -/
theorem c10_result_needs_max_iter_ge_two_witness :
    fit_single c10Cfg trivCollab c10Series [0, 1, 2] none
      = .error "NameError: name Tt is not defined"
    ∧ ∃ out, fit_single dummyCfg trivCollab c10Series [0, 1, 2] none = .ok out :=
  ⟨((c10_result_needs_max_iter_ge_two c10Cfg trivCollab c10Series [0, 1, 2] none).1
      (by decide)).2,
   (c10_result_needs_max_iter_ge_two dummyCfg trivCollab c10Series [0, 1, 2] none).2
      (by decide)⟩

/-- C3, counterexample: with `max_iter = 4` and collaborators under which
the trend breakpoint set alternates `[1], [2], [1], ...` forever, the
loop's exit state is the state after three body iterations
(`max_iter - 1 = 3`), with the iteration counter equal to `max_iter = 4`
(the counter starts at 1, line 195); it differs from the state after four
iterations, so the loop does not execute `max_iter` iterations as the
claim states. -/
theorem c3_counterexample :
    loopExitState c3Cfg c3Collab c3Series c3Ti c3Smod
      = ((pixelBody c3Cfg c3Collab c3Series c3Ti c3Smod)^[3])
          (pixelInit c3Cfg c3Collab c3Series)
    ∧ (loopExitState c3Cfg c3Collab c3Series c3Ti c3Smod).i_iter = 4
    ∧ loopExitState c3Cfg c3Collab c3Series c3Ti c3Smod
        ≠ ((pixelBody c3Cfg c3Collab c3Series c3Ti c3Smod)^[4])
            (pixelInit c3Cfg c3Collab c3Series) := by
  refine ⟨by decide, by decide, by decide⟩

/-- C3 amended: on inputs where the trend breakpoint set registers as
changed at every check, the decomposition loop executes exactly
`max_iter - 1` body iterations — not `max_iter`: the counter starts at 1
and the loop runs while `i_iter < max_iter` — then stops without an error
and `fit_single` returns the estimates computed in the last iteration. -/
theorem c3_nonstabilizing_runs (cfg : Config) (c : Collab)
    (y : List (Option ℤ)) (t : List ℚ) (m : Option (List (List ℚ)))
    (h2 : 2 ≤ cfg.max_iter)
    (hd : ∀ k, k < cfg.max_iter - 1 →
      different (((pixelBody cfg c y t m)^[k]) (pixelInit cfg c y)).Vt_bp
        (((pixelBody cfg c y t m)^[k]) (pixelInit cfg c y)).CheckTimeTt = true) :
    loopExitState cfg c y t m
      = ((pixelBody cfg c y t m)^[cfg.max_iter - 1]) (pixelInit cfg c y)
    ∧ (loopExitState cfg c y t m).i_iter = cfg.max_iter
    ∧ ∃ out, fit_single cfg c y t m = .ok out := by
  have hinc : ∀ s, (pixelBody cfg c y t m s).i_iter = s.i_iter + 1 :=
    fun s => pixelBody_i_iter cfg c y t m s
  have hrun : loopExitState cfg c y t m
      = ((pixelBody cfg c y t m)^[cfg.max_iter - 1]) (pixelInit cfg c y) := by
    unfold loopExitState
    refine loopGo_runs cfg _ hinc (cfg.max_iter - 1) cfg.max_iter
      (pixelInit cfg c y) (by omega) ?_ hd
    have : (pixelInit cfg c y).i_iter = 1 := rfl
    omega
  refine ⟨hrun, ?_, ?_⟩
  · rw [hrun, iterate_i_iter _ hinc]
    have : (pixelInit cfg c y).i_iter = 1 := rfl
    omega
  · have hsome : ((loopExitState cfg c y t m).TtNt).isSome = true := by
      rw [hrun]
      obtain ⟨j, hj⟩ : ∃ j, cfg.max_iter - 1 = j + 1 := ⟨cfg.max_iter - 2, by omega⟩
      rw [hj, Function.iterate_succ_apply']
      exact pixelBody_TtNt_isSome cfg c y t m _
    obtain ⟨tn, htn⟩ := Option.isSome_iff_exists.mp hsome
    exact fit_single_ok_of_isSome cfg c y t m tn htn

/-- C3 witness: the amended theorem applied to the alternating
collaborators with `max_iter = 4`: the non-stabilization hypothesis holds
by computation, the loop runs `max_iter - 1 = 3` bodies, the counter
reaches 4, and `fit_single` returns a result. -/
theorem c3_nonstabilizing_runs_witness :
    loopExitState c3Cfg c3Collab c3Series c3Ti c3Smod
      = ((pixelBody c3Cfg c3Collab c3Series c3Ti c3Smod)^[c3Cfg.max_iter - 1])
          (pixelInit c3Cfg c3Collab c3Series)
    ∧ (loopExitState c3Cfg c3Collab c3Series c3Ti c3Smod).i_iter = c3Cfg.max_iter
    ∧ ∃ out, fit_single c3Cfg c3Collab c3Series c3Ti c3Smod = .ok out :=
  c3_nonstabilizing_runs c3Cfg c3Collab c3Series c3Ti c3Smod (by decide) (by decide)

/-- On empty compacted data (no usable observation), one loop body produces
empty breakpoint sets and empty fitted vectors, whatever the collaborators
do, as long as the breakpoint search honors its contract of returning
compacted-space indices. -/
theorem bodyStep_nil (cfg : Config) (c : Collab) (ti : List ℚ)
    (smodC : List (List ℚ)) (nm : List ℕ) (s : LoopState)
    (hsr : ∀ X r h mb, ∀ i ∈ c.search X r h mb, i < r.length)
    (hw : s.Wt_bp = []) :
    ∃ St' Tt', bodyStep cfg c ti [] smodC nm 0 s
      = { St := St', Vt_bp := [], Wt_bp := [], CheckTimeTt := s.Vt_bp,
          CheckTimeSt := [], TtNt := some (Tt', []), i_iter := s.i_iter + 1 } := by
  have hse : ∀ X h mb, c.search X [] h mb = [] := by
    intro X h mb
    rcases hcs : c.search X [] h mb with _ | ⟨i, is⟩
    · rfl
    · have := hsr X [] h mb i (by rw [hcs]; exact List.mem_cons_self _ _)
      simp at this
  have hbp : (if c.efp (addConstantVec ti) ([] : List ℤ) cfg.h ≤ cfg.level then
      c.search (addConstantVec ti) ([] : List ℤ) cfg.h cfg.max_breaks
    else []) = [] := by
    split
    · exact hse _ _ _
    · rfl
  have htr : trendStep cfg c ti [] s.St 0 = (c.ols (colMatrix ti) [], []) := by
    simp only [trendStep, omit_nans, List.zipWith_nil_left]
    simp [hbp]
  have hsea : ∀ Tt : List ℤ, ∃ St',
      seasonStep cfg c [] Tt smodC nm 0 [] = (St', []) := by
    intro Tt
    unfold seasonStep
    split
    · exact ⟨_, rfl⟩
    · have hbpW : (if c.efp smodC ([] : List ℤ) cfg.h ≤ cfg.level then
          c.search smodC ([] : List ℤ) cfg.h cfg.max_breaks
        else []) = [] := by
        split
        · exact hse _ _ _
        · rfl
      exact ⟨c.ols smodC [], by simp [hbpW]⟩
  obtain ⟨St', hsea'⟩ := hsea (c.ols (colMatrix ti) [])
  refine ⟨St', c.ols (colMatrix ti) [], ?_⟩
  simp only [bodyStep, htr, hw, hsea']
  rfl

/-- C4: on an all-missing series of every length `N`, `fit_single` returns
(without an error) Trend/Season/Remainder arrays of length `N` that are all
the missing sentinel, zero-filled breakpoint arrays, and zero breakpoint
counts, whenever the breakpoint search honors its contract of returning
compacted-space indices and `max_iter` is at least 2 (so that the loop body
runs; see C10 for `max_iter ≤ 1`). -/
theorem c4_all_missing (cfg : Config) (c : Collab) (N : ℕ) (t : List ℚ)
    (m : Option (List (List ℚ)))
    (hsr : ∀ X r h mb, ∀ i ∈ c.search X r h mb, i < r.length)
    (h2 : 2 ≤ cfg.max_iter) :
    fit_single cfg c (List.replicate N (none : Option ℤ)) t m
      = .ok { Tt_n := List.replicate N none, St_n := List.replicate N none,
              Nt_n := List.replicate N none,
              Vt_bp_arr := List.replicate N 0, Wt_bp_arr := List.replicate N 0,
              n_Vt_bp := 0, n_Wt_bp := 0 } := by
  have hnm : create_nan_map (List.replicate N (none : Option ℤ)) = [] := by
    unfold create_nan_map
    rw [List.filter_eq_nil_iff]
    intro a ha
    have haN : a < N := by simpa using List.mem_range.mp (by simpa using ha)
    simp [List.getD_eq_getElem?_getD, List.getElem?_replicate, haN]
  have hYt : compactVals (List.replicate N (none : Option ℤ)) = [] := by
    simp [compactVals, hnm]
  obtain ⟨St', Tt', hb⟩ := bodyStep_nil cfg c [] (smodCompact m [])
    [] (pixelInit cfg c (List.replicate N none)) hsr rfl
  have hb1 : pixelBody cfg c (List.replicate N none) t m
      (pixelInit cfg c (List.replicate N none))
      = { St := St', Vt_bp := [], Wt_bp := [], CheckTimeTt := [],
          CheckTimeSt := [], TtNt := some (Tt', []), i_iter := 2 } := by
    unfold pixelBody
    rw [hnm, hYt]
    simpa [npIndex] using hb
  obtain ⟨k, hk⟩ : ∃ k, cfg.max_iter = k + 2 := ⟨cfg.max_iter - 2, by omega⟩
  have hexit : loopExitState cfg c (List.replicate N none) t m
      = { St := St', Vt_bp := [], Wt_bp := [], CheckTimeTt := [],
          CheckTimeSt := [], TtNt := some (Tt', []), i_iter := 2 } := by
    unfold loopExitState
    rw [hk, loopGo]
    have hcond : loopCond cfg (pixelInit cfg c (List.replicate N none)) = true := by
      have hlt : (1 : ℕ) < cfg.max_iter := by omega
      simp [loopCond, different, pixelInit, hk]
    rw [hcond]
    simp only [if_true]
    rw [hb1, loopGo]
    have hcond2 : loopCond cfg
        { St := St', Vt_bp := [], Wt_bp := [], CheckTimeTt := ([] : List ℕ),
          CheckTimeSt := [], TtNt := some (Tt', []), i_iter := 2 } = false := by
      simp [loopCond, different]
    rw [hcond2]
    simp
  unfold fit_single
  rw [hexit]
  simp [hnm, scatter, padZeros, npIndex]

/-- C4 witness: the degenerate output at the concrete all-missing series of
length 3 under the trivial collaborators and the default configuration. -/
theorem c4_all_missing_witness :
    fit_single dummyCfg trivCollab (List.replicate 3 (none : Option ℤ)) [0, 1, 2] none
      = .ok { Tt_n := List.replicate 3 none, St_n := List.replicate 3 none,
              Nt_n := List.replicate 3 none, Vt_bp_arr := List.replicate 3 0,
              Wt_bp_arr := List.replicate 3 0, n_Vt_bp := 0, n_Wt_bp := 0 } :=
  c4_all_missing dummyCfg trivCollab 3 [0, 1, 2] none
    (fun X r h mb i hi => absurd hi (by simp [trivCollab])) (by decide)

/-! Lemmas about the scatter assignment and the compacted lengths,
for claims C6 and C7. -/

theorem scatter_cons (arr : List (Option ℤ)) (i : ℕ) (is : List ℕ)
    (v : ℤ) (vs : List ℤ) :
    scatter arr (i :: is) (v :: vs) = scatter (arr.set i (some v)) is vs := rfl

theorem scatter_length (idx : List ℕ) (vals : List ℤ)
    (arr : List (Option ℤ)) :
    (scatter arr idx vals).length = arr.length := by
  induction idx generalizing vals arr with
  | nil => rfl
  | cons i is ih =>
    cases vals with
    | nil => rfl
    | cons v vs =>
      rw [scatter_cons, ih vs (arr.set i (some v))]
      exact List.length_set ..

theorem scatter_getElem?_not_mem (idx : List ℕ) (vals : List ℤ)
    (arr : List (Option ℤ)) (p : ℕ) (hp : p ∉ idx) :
    (scatter arr idx vals)[p]? = arr[p]? := by
  induction idx generalizing vals arr with
  | nil => rfl
  | cons i is ih =>
    cases vals with
    | nil => rfl
    | cons v vs =>
      rw [scatter_cons, ih vs _ (fun h => hp (List.mem_cons_of_mem _ h))]
      refine List.getElem?_set_ne ?_
      intro h
      exact hp (by rw [← h]; exact List.mem_cons_self i is)

theorem scatter_getElem?_mem (idx : List ℕ) (vals : List ℤ)
    (arr : List (Option ℤ)) (k : ℕ) (hnd : idx.Nodup)
    (hk : k < idx.length) (hkv : k < vals.length)
    (hbound : ∀ i ∈ idx, i < arr.length) :
    (scatter arr idx vals)[idx.getD k 0]? = some (some (vals.getD k 0)) := by
  induction idx generalizing vals arr k with
  | nil => simp at hk
  | cons i is ih =>
    cases vals with
    | nil => simp at hkv
    | cons v vs =>
      rw [scatter_cons]
      cases k with
      | zero =>
        have hi : i ∉ is := (List.nodup_cons.mp hnd).1
        have hskip : (scatter (arr.set i (some v)) is vs)[i]?
            = (arr.set i (some v))[i]? :=
          scatter_getElem?_not_mem is vs _ i hi
        show (scatter (arr.set i (some v)) is vs)[i]? = some (some v)
        rw [hskip]
        exact List.getElem?_set_eq_of_lt _ (hbound i (List.mem_cons_self _ _))
      | succ k' =>
        show (scatter (arr.set i (some v)) is vs)[is.getD k' 0]?
          = some (some (vs.getD k' 0))
        exact ih vs (arr.set i (some v)) k' (List.nodup_cons.mp hnd).2
          (by simpa using hk) (by simpa using hkv)
          (fun j hj => by
            rw [List.length_set]
            exact hbound j (List.mem_cons_of_mem _ hj))

theorem trendStep_fst_length (cfg : Config) (c : Collab) (ti : List ℚ)
    (Yt St : List ℤ) (nrow : ℕ)
    (hols : ∀ X r, (c.ols X r).length = r.length)
    (hSt : St.length = Yt.length) :
    (trendStep cfg c ti Yt St nrow).1.length = Yt.length := by
  simp only [trendStep, omit_nans]
  split <;> split <;>
    first
      | rw [hols, List.length_zipWith, hSt, Nat.min_self]
      | rw [hols]

theorem seasonStep_fst_length (cfg : Config) (c : Collab) (Yt Tt : List ℤ)
    (smodC : List (List ℚ)) (nm : List ℕ) (w : List ℕ)
    (hols : ∀ X r, (c.ols X r).length = r.length)
    (hTt : Tt.length = Yt.length) :
    (seasonStep cfg c Yt Tt smodC nm Yt.length w).1.length = Yt.length := by
  simp only [seasonStep]
  split
  · simp
  · split <;> split <;> rw [hols, List.length_zipWith, hTt, Nat.min_self]

theorem bodyStep_lengths (cfg : Config) (c : Collab) (ti : List ℚ)
    (Yt : List ℤ) (smodC : List (List ℚ)) (nm : List ℕ) (s : LoopState)
    (hols : ∀ X r, (c.ols X r).length = r.length)
    (hSt : s.St.length = Yt.length) :
    (bodyStep cfg c ti Yt smodC nm Yt.length s).St.length = Yt.length
    ∧ ∀ a b, (bodyStep cfg c ti Yt smodC nm Yt.length s).TtNt = some (a, b) →
        a.length = Yt.length ∧ b.length = Yt.length := by
  have hT := trendStep_fst_length cfg c ti Yt s.St Yt.length hols hSt
  have hS := seasonStep_fst_length cfg c Yt
    (trendStep cfg c ti Yt s.St Yt.length).1 smodC nm s.Wt_bp hols hT
  constructor
  · exact hS
  · intro a b hab
    have hab' : ((trendStep cfg c ti Yt s.St Yt.length).1,
        List.zipWith (· - ·)
          (List.zipWith (· - ·) Yt (trendStep cfg c ti Yt s.St Yt.length).1)
          (seasonStep cfg c Yt (trendStep cfg c ti Yt s.St Yt.length).1
            smodC nm Yt.length s.Wt_bp).1) = (a, b) := by
      simpa [bodyStep] using hab
    obtain ⟨ha, hb⟩ := Prod.mk.injEq .. ▸ hab'
    constructor
    · rw [← ha]; exact hT
    · rw [← hb]
      rw [List.length_zipWith, List.length_zipWith, hT, hS, Nat.min_self,
        Nat.min_self]

theorem loopExit_lengths (cfg : Config) (c : Collab) (y : List (Option ℤ))
    (t : List ℚ) (m : Option (List (List ℚ)))
    (hols : ∀ X r, (c.ols X r).length = r.length) :
    (loopExitState cfg c y t m).St.length = (compactVals y).length
    ∧ ∀ a b, (loopExitState cfg c y t m).TtNt = some (a, b) →
        a.length = (compactVals y).length
        ∧ b.length = (compactVals y).length := by
  unfold loopExitState
  refine loopGo_preserve cfg _
    (fun s => s.St.length = (compactVals y).length
      ∧ ∀ a b, s.TtNt = some (a, b) →
          a.length = (compactVals y).length
          ∧ b.length = (compactVals y).length)
    (fun s hs => ?_) _ _ ⟨?_, ?_⟩
  · exact bodyStep_lengths cfg c _ (compactVals y) _ _ s hols hs.1
  · rw [show (pixelInit cfg c y).St = npIndex (stSeed cfg c y) (create_nan_map y) 0
      from rfl]
    rw [npIndex_length, compactVals_length]
  · intro a b hab
    simp [pixelInit] at hab

/-- Inversion of a successful `fit_single` run: the output record is the
remap of the loop exit state. -/
theorem fit_single_ok_inv (cfg : Config) (c : Collab) (y : List (Option ℤ))
    (t : List ℚ) (m : Option (List (List ℚ))) (out : FitResult)
    (hok : fit_single cfg c y t m = .ok out) :
    ∃ tn, (loopExitState cfg c y t m).TtNt = some tn
      ∧ out
        = { Tt_n := scatter (List.replicate y.length none) (create_nan_map y) tn.1
            St_n := scatter (List.replicate y.length none) (create_nan_map y)
              (loopExitState cfg c y t m).St
            Nt_n := scatter (List.replicate y.length none) (create_nan_map y) tn.2
            Vt_bp_arr := padZeros y.length
              (npIndex (create_nan_map y) (loopExitState cfg c y t m).Vt_bp 0)
            Wt_bp_arr := padZeros y.length
              (npIndex (create_nan_map y) (loopExitState cfg c y t m).Wt_bp 0)
            n_Vt_bp := (loopExitState cfg c y t m).Vt_bp.length
            n_Wt_bp := (loopExitState cfg c y t m).Wt_bp.length } := by
  revert hok
  simp only [fit_single]
  rcases h : (loopExitState cfg c y t m).TtNt with _ | tn
  · intro hok
    exact absurd hok (by simp)
  · intro hok
    refine ⟨tn, rfl, ?_⟩
    injection hok with hok'
    exact hok'.symm

/-! Claim C6: the component remap. -/

/-- C6: on any input and missing pattern, the returned Trend, Season and
Remainder arrays have length `N`; at the original position `index_map k`
(for `k` below the compacted length) each holds the `k`-th compacted fitted
value of the loop exit state; and at every originally-missing position each
holds the missing sentinel.  The least-squares collaborator is assumed to
honor its contract of returning one fitted value per response entry. -/
theorem c6_component_remap (cfg : Config) (c : Collab) (y : List (Option ℤ))
    (t : List ℚ) (m : Option (List (List ℚ))) (out : FitResult)
    (Tt Nt : List ℤ)
    (hols : ∀ X r, (c.ols X r).length = r.length)
    (hTt : (loopExitState cfg c y t m).TtNt = some (Tt, Nt))
    (hok : fit_single cfg c y t m = .ok out) :
    out.Tt_n.length = y.length ∧ out.St_n.length = y.length
    ∧ out.Nt_n.length = y.length
    ∧ (∀ k, k < (create_nan_map y).length →
        out.Tt_n[(create_nan_map y).getD k 0]? = some (some (Tt.getD k 0))
        ∧ out.St_n[(create_nan_map y).getD k 0]?
            = some (some ((loopExitState cfg c y t m).St.getD k 0))
        ∧ out.Nt_n[(create_nan_map y).getD k 0]? = some (some (Nt.getD k 0)))
    ∧ (∀ p, p < y.length → y.getD p none = none →
        out.Tt_n[p]? = some none ∧ out.St_n[p]? = some none
        ∧ out.Nt_n[p]? = some none) := by
  obtain ⟨tn, htn, hout⟩ := fit_single_ok_inv cfg c y t m out hok
  obtain rfl : tn = (Tt, Nt) := Option.some_inj.mp (htn.symm.trans hTt)
  subst hout
  obtain ⟨hStlen, hTNlen⟩ := loopExit_lengths cfg c y t m hols
  obtain ⟨hTlen, hNlen⟩ := hTNlen Tt Nt hTt
  have hcl := compactVals_length y
  have hnd := create_nan_map_nodup y
  have hbound : ∀ i ∈ create_nan_map y,
      i < (List.replicate y.length (none : Option ℤ)).length := by
    intro i hi
    rw [List.length_replicate]
    exact ((mem_create_nan_map y i).mp hi).1
  refine ⟨?_, ?_, ?_, ?_, ?_⟩
  · rw [scatter_length, List.length_replicate]
  · rw [scatter_length, List.length_replicate]
  · rw [scatter_length, List.length_replicate]
  · intro k hk
    refine ⟨?_, ?_, ?_⟩
    · exact scatter_getElem?_mem _ Tt _ k hnd hk (by omega) hbound
    · exact scatter_getElem?_mem _ _ _ k hnd hk (by omega) hbound
    · exact scatter_getElem?_mem _ Nt _ k hnd hk (by omega) hbound
  · intro p hp hmiss
    have hpnm : p ∉ create_nan_map y := by
      intro hmem
      have hsome := ((mem_create_nan_map y p).mp hmem).2
      rw [hmiss] at hsome
      simp at hsome
    have hrep : (List.replicate y.length (none : Option ℤ))[p]? = some none := by
      rw [List.getElem?_replicate, if_pos hp]
    refine ⟨?_, ?_, ?_⟩ <;>
      rw [scatter_getElem?_not_mem _ _ _ p hpnm, hrep]

/-- C6 witness: the remap conclusions evaluated on the odd-gaps series
`c1Series`, whose index map is `[0, 2, 4, 6, 8]`: the array has length 10,
compacted position 2 lands at original index 4 with fitted value 3, and the
originally-missing position 1 holds the sentinel. -/
theorem c6_component_remap_witness :
    c1Out.Tt_n.length = c1Series.length
    ∧ c1Out.Tt_n[(create_nan_map c1Series).getD 2 0]?
        = some (some (([1, 2, 3, 4, 5] : List ℤ).getD 2 0))
    ∧ c1Out.Tt_n[1]? = some none :=
  have h := c6_component_remap dummyCfg c1Collab c1Series c1Ti c1Smod c1Out
    [1, 2, 3, 4, 5] [0, 0, 0, 0, 0] (fun X r => rfl) (by decide) (by rfl)
  ⟨h.1, (h.2.2.2.1 2 (by decide)).1, (h.2.2.2.2 1 (by decide) (by decide)).1⟩

/-! Lemmas bounding the breakpoint set sizes, for claim C7. -/

theorem length_le_of_pairwise_lt (l : List ℕ) (n : ℕ)
    (hp : l.Pairwise (· < ·)) (hb : ∀ x ∈ l, x < n) : l.length ≤ n := by
  have hnd : l.Nodup := List.Pairwise.imp (fun h => Nat.ne_of_lt h) hp
  calc l.length = l.toFinset.card := (List.toFinset_card_of_nodup hnd).symm
    _ ≤ (Finset.range n).card := by
        refine Finset.card_le_card ?_
        intro x hx
        exact Finset.mem_range.mpr (hb x (List.mem_toFinset.mp hx))
    _ = n := Finset.card_range n

theorem trendStep_snd_bound (cfg : Config) (c : Collab) (ti : List ℚ)
    (Yt St : List ℤ) (nrow : ℕ)
    (hss : ∀ X r h mb, (c.search X r h mb).Pairwise (· < ·))
    (hsr : ∀ X r h mb, ∀ i ∈ c.search X r h mb, i < r.length) :
    (trendStep cfg c ti Yt St nrow).2.length ≤ Yt.length := by
  have hbound : ∀ X h mb,
      (c.search X (List.zipWith (· - ·) Yt St) h mb).length ≤ Yt.length := by
    intro X h mb
    refine le_trans
      (length_le_of_pairwise_lt _ (List.zipWith (· - ·) Yt St).length
        (hss _ _ _ _) (hsr _ _ _ _)) ?_
    rw [List.length_zipWith]
    omega
  simp only [trendStep, omit_nans]
  split <;> split
  · simp
  · exact hbound _ _ _
  · simp
  · simp

theorem seasonStep_snd_bound (cfg : Config) (c : Collab) (Yt Tt : List ℤ)
    (smodC : List (List ℚ)) (nm : List ℕ) (nrow : ℕ) (w : List ℕ)
    (hss : ∀ X r h mb, (c.search X r h mb).Pairwise (· < ·))
    (hsr : ∀ X r h mb, ∀ i ∈ c.search X r h mb, i < r.length)
    (hw : w.length ≤ Yt.length) :
    (seasonStep cfg c Yt Tt smodC nm nrow w).2.length ≤ Yt.length := by
  have hbound : ∀ h mb,
      (c.search smodC (List.zipWith (· - ·) Yt Tt) h mb).length ≤ Yt.length := by
    intro h mb
    refine le_trans
      (length_le_of_pairwise_lt _ (List.zipWith (· - ·) Yt Tt).length
        (hss _ _ _ _) (hsr _ _ _ _)) ?_
    rw [List.length_zipWith]
    omega
  simp only [seasonStep]
  split
  · exact hw
  · split <;> split
    · simp
    · rw [npIndex_length]
      exact hbound _ _
    · simp
    · simp [npIndex]

theorem loopExit_bp_bounds (cfg : Config) (c : Collab) (y : List (Option ℤ))
    (t : List ℚ) (m : Option (List (List ℚ)))
    (hss : ∀ X r h mb, (c.search X r h mb).Pairwise (· < ·))
    (hsr : ∀ X r h mb, ∀ i ∈ c.search X r h mb, i < r.length) :
    (loopExitState cfg c y t m).Vt_bp.length ≤ (compactVals y).length
    ∧ (loopExitState cfg c y t m).Wt_bp.length ≤ (compactVals y).length := by
  unfold loopExitState
  refine loopGo_preserve cfg _
    (fun s => s.Vt_bp.length ≤ (compactVals y).length
      ∧ s.Wt_bp.length ≤ (compactVals y).length)
    (fun s hs => ?_) _ _ ⟨by simp [pixelInit], by simp [pixelInit]⟩
  constructor
  · exact trendStep_snd_bound cfg c _ (compactVals y) s.St _ hss hsr
  · exact seasonStep_snd_bound cfg c (compactVals y) _ _ _ _ s.Wt_bp hss hsr hs.2

theorem padZeros_spec (n : ℕ) (v : List ℕ) (hv : v.length ≤ n) :
    (padZeros n v).length = n
    ∧ (padZeros n v).take v.length = v
    ∧ (padZeros n v).drop v.length = List.replicate (n - v.length) 0 := by
  unfold padZeros
  refine ⟨?_, ?_, ?_⟩
  · simp
    omega
  · exact List.take_left ..
  · exact List.drop_left ..

/-! Claim C7: breakpoint array padding discipline. -/

/-- C7: every successful `fit_single` output has breakpoint arrays of
length `N`, reported counts that never exceed `N`, the translated
breakpoint indices left-aligned in the first `count` slots, and the zero
sentinel in every slot at or beyond `count`.  The breakpoint search is
assumed to honor its contract of returning strictly increasing
compacted-space indices. -/
theorem c7_breakpoint_padding (cfg : Config) (c : Collab)
    (y : List (Option ℤ)) (t : List ℚ) (m : Option (List (List ℚ)))
    (out : FitResult)
    (hss : ∀ X r h mb, (c.search X r h mb).Pairwise (· < ·))
    (hsr : ∀ X r h mb, ∀ i ∈ c.search X r h mb, i < r.length)
    (hok : fit_single cfg c y t m = .ok out) :
    (out.Vt_bp_arr.length = y.length ∧ out.n_Vt_bp ≤ y.length
      ∧ out.Vt_bp_arr.take out.n_Vt_bp
          = npIndex (create_nan_map y) (loopExitState cfg c y t m).Vt_bp 0
      ∧ out.Vt_bp_arr.drop out.n_Vt_bp
          = List.replicate (y.length - out.n_Vt_bp) 0)
    ∧ (out.Wt_bp_arr.length = y.length ∧ out.n_Wt_bp ≤ y.length
      ∧ out.Wt_bp_arr.take out.n_Wt_bp
          = npIndex (create_nan_map y) (loopExitState cfg c y t m).Wt_bp 0
      ∧ out.Wt_bp_arr.drop out.n_Wt_bp
          = List.replicate (y.length - out.n_Wt_bp) 0) := by
  obtain ⟨tn, htn, hout⟩ := fit_single_ok_inv cfg c y t m out hok
  subst hout
  obtain ⟨hV, hW⟩ := loopExit_bp_bounds cfg c y t m hss hsr
  have hnm := create_nan_map_length_le y
  have hcl := compactVals_length y
  have hVN : (loopExitState cfg c y t m).Vt_bp.length ≤ y.length := by omega
  have hWN : (loopExitState cfg c y t m).Wt_bp.length ≤ y.length := by omega
  have hVlen : (npIndex (create_nan_map y) (loopExitState cfg c y t m).Vt_bp 0).length
      = (loopExitState cfg c y t m).Vt_bp.length := npIndex_length ..
  have hWlen : (npIndex (create_nan_map y) (loopExitState cfg c y t m).Wt_bp 0).length
      = (loopExitState cfg c y t m).Wt_bp.length := npIndex_length ..
  obtain ⟨hVa, hVb, hVc⟩ := padZeros_spec y.length
    (npIndex (create_nan_map y) (loopExitState cfg c y t m).Vt_bp 0) (by omega)
  obtain ⟨hWa, hWb, hWc⟩ := padZeros_spec y.length
    (npIndex (create_nan_map y) (loopExitState cfg c y t m).Wt_bp 0) (by omega)
  rw [hVlen] at hVb hVc
  rw [hWlen] at hWb hWc
  exact ⟨⟨hVa, hVN, hVb, hVc⟩, ⟨hWa, hWN, hWb, hWc⟩⟩

/-- C7 witness: the padding discipline evaluated on the odd-gaps series
`c1Series`, where one seasonal breakpoint is found: the seasonal array has
length 10, count 1, the translated index in slot 0, and zeros beyond. -/
theorem c7_breakpoint_padding_witness :
    c1Out.Wt_bp_arr.length = c1Series.length
    ∧ c1Out.n_Wt_bp ≤ c1Series.length
    ∧ c1Out.Wt_bp_arr.take c1Out.n_Wt_bp
        = npIndex (create_nan_map c1Series)
            (loopExitState dummyCfg c1Collab c1Series c1Ti c1Smod).Wt_bp 0
    ∧ c1Out.Wt_bp_arr.drop c1Out.n_Wt_bp
        = List.replicate (c1Series.length - c1Out.n_Wt_bp) 0 :=
  (c7_breakpoint_padding dummyCfg c1Collab c1Series c1Ti c1Smod c1Out
    (fun X r h mb => by
      show (if X = List.replicate 5 [(1 : ℚ)] ∧ 2 < r.length
        then [2] else []).Pairwise (· < ·)
      split <;> simp)
    (fun X r h mb i hi => by
      revert hi
      show i ∈ (if X = List.replicate 5 [(1 : ℚ)] ∧ 2 < r.length
        then [2] else []) → i < r.length
      split
      · next hc =>
        intro hi
        rw [List.mem_singleton.mp hi]
        exact hc.2
      · intro hi
        simp at hi)
    (by rfl)).2

/-! Lemmas about the dummy seasonal design, for claim C8. -/

theorem le_nboxes_mul (f n : ℕ) (hf : 1 ≤ f) : n ≤ ((n + f - 1) / f) * f := by
  have h1 := Nat.div_add_mod (n + f - 1) f
  have h2 : (n + f - 1) % f < f := Nat.mod_lt _ (by omega)
  have h3 : f * ((n + f - 1) / f) = ((n + f - 1) / f) * f :=
    Nat.mul_comm f ((n + f - 1) / f)
  generalize hm : f * ((n + f - 1) / f) = mfq at h1 h3
  generalize hm2 : ((n + f - 1) / f) * f = mqf at h3 ⊢
  omega

theorem eyeBox_length (f : ℕ) (hf : 1 ≤ f) : (eyeBox f).length = f := by
  simp [eyeBox, eyeMatrix]
  omega

theorem eyeBox_row_length (f : ℕ) (row : List ℚ) (hrow : row ∈ eyeBox f) :
    row.length = f - 1 := by
  rcases List.mem_append.mp hrow with h | h
  · simp only [eyeMatrix, List.mem_map] at h
    obtain ⟨i, _, rfl⟩ := h
    simp
  · simp only [List.mem_singleton] at h
    subst h
    simp

theorem eyeMatrix_getElem? (nn i : ℕ) (hi : i < nn) :
    (eyeMatrix nn)[i]?
      = some ((List.range nn).map (fun j => if i = j then (1 : ℚ) else 0)) := by
  simp [eyeMatrix, List.getElem?_map, List.getElem?_range, hi]

theorem mapRange_getD (nn c : ℕ) (g : ℕ → ℚ) (hc : c < nn) :
    ((List.range nn).map g).getD c 0 = g c := by
  rw [List.getD_eq_getElem?_getD, List.getElem?_map, List.getElem?_range hc]
  rfl

theorem eyeBox_getElem?_lt (f i : ℕ) (hi : i < f - 1) :
    (eyeBox f)[i]?
      = some ((List.range (f - 1)).map (fun j => if i = j then (1 : ℚ) else 0)) := by
  unfold eyeBox
  rw [List.getElem?_append_left (by simp [eyeMatrix]; omega)]
  exact eyeMatrix_getElem? (f - 1) i hi

theorem eyeBox_getElem?_last (f : ℕ) :
    (eyeBox f)[f - 1]? = some (List.replicate (f - 1) (-1 : ℚ)) := by
  unfold eyeBox
  rw [List.getElem?_append_right (by simp [eyeMatrix])]
  simp [eyeMatrix]

theorem flatten_replicate_getElem? (L : List (List ℚ)) :
    ∀ (nb r : ℕ), r < nb * L.length →
      (List.flatten (List.replicate nb L))[r]? = L[r % L.length]? := by
  intro nb
  induction nb with
  | zero =>
    intro r hr
    simp at hr
  | succ nn ih =>
    intro r hr
    have hL : 0 < L.length := by
      rcases Nat.eq_zero_or_pos L.length with h0 | h0
      · rw [h0, Nat.mul_zero] at hr
        omega
      · exact h0
    rw [List.replicate_succ, List.flatten_cons]
    rcases lt_or_ge r L.length with h | h
    · rw [List.getElem?_append_left h, Nat.mod_eq_of_lt h]
    · have hr' : r - L.length < nn * L.length := by
        rw [Nat.succ_mul] at hr
        omega
      rw [List.getElem?_append_right h, ih (r - L.length) hr']
      have hmod : (r - L.length) % L.length = r % L.length := by
        conv_rhs => rw [← Nat.sub_add_cancel h]
        rw [Nat.add_mod_right]
      rw [hmod]

theorem dummyBase_getElem? (f n r : ℕ) (hf : 1 ≤ f) (hr : r < n) :
    (dummyBase f n)[r]? = (eyeBox f)[r % f]? := by
  unfold dummyBase
  rw [List.getElem?_take_of_lt hr]
  have hb : r < ((n + f - 1) / f) * (eyeBox f).length := by
    rw [eyeBox_length f hf]
    have := le_nboxes_mul f n hf
    omega
  rw [flatten_replicate_getElem? (eyeBox f) _ r hb, eyeBox_length f hf]

theorem dummyBase_length (f n : ℕ) (hf : 1 ≤ f) : (dummyBase f n).length = n := by
  unfold dummyBase
  rw [List.length_take, List.length_flatten, List.map_replicate,
    List.sum_replicate, smul_eq_mul, eyeBox_length f hf]
  have := le_nboxes_mul f n hf
  omega

theorem dummyBase_mem (f n : ℕ) (row : List ℚ) (h : row ∈ dummyBase f n) :
    row ∈ eyeBox f := by
  unfold dummyBase at h
  obtain ⟨L, hL, hrow⟩ := List.mem_flatten.mp (List.mem_of_mem_take h)
  rw [List.eq_of_mem_replicate hL] at hrow
  exact hrow

theorem hasNonzeroConstCol_eq_false_of (a b : List ℚ) (rest : List (List ℚ))
    (hcols : ∀ cc, cc < a.length →
      a.getD cc 0 = 0 ∨ b.getD cc 0 ≠ a.getD cc 0) :
    hasNonzeroConstCol (a :: b :: rest) = false := by
  unfold hasNonzeroConstCol
  rw [List.any_eq_false]
  intro cc hcc
  have hcc' : cc < a.length := List.mem_range.mp hcc
  intro hp
  rw [Bool.and_eq_true] at hp
  obtain ⟨hp1, hp2⟩ := hp
  rw [decide_eq_true_eq] at hp1
  rw [List.all_eq_true] at hp2
  rcases hcols cc hcc' with hz | hne
  · exact hp1 hz
  · have hb := hp2 b (by simp)
    rw [decide_eq_true_eq] at hb
    exact hne hb

theorem dummyBase_no_skip (f n : ℕ) (hf : 2 ≤ f) (hn : 2 ≤ n) :
    hasNonzeroConstCol (dummyBase f n) = false := by
  have h0 : (dummyBase f n)[0]?
      = some ((List.range (f - 1)).map (fun j => if 0 = j then (1 : ℚ) else 0)) := by
    rw [dummyBase_getElem? f n 0 (by omega) (by omega), Nat.zero_mod]
    exact eyeBox_getElem?_lt f 0 (by omega)
  rcases hM : dummyBase f n with _ | ⟨a, tail⟩
  · rw [hM] at h0
    simp at h0
  rcases tail with _ | ⟨b, rest⟩
  · have hlen := dummyBase_length f n (by omega)
    rw [hM] at hlen
    simp at hlen
    omega
  rw [hM] at h0
  simp only [List.getElem?_cons_zero, Option.some_inj] at h0
  rcases Nat.lt_or_ge 2 f with hf3 | hf2'
  · -- f ≥ 3: row 1 is the second identity row, zero in column 0
    have h1 : (dummyBase f n)[1]?
        = some ((List.range (f - 1)).map (fun j => if 1 = j then (1 : ℚ) else 0)) := by
      rw [dummyBase_getElem? f n 1 (by omega) (by omega),
        Nat.mod_eq_of_lt (by omega)]
      exact eyeBox_getElem?_lt f 1 (by omega)
    rw [hM] at h1
    simp only [List.getElem?_cons_succ, List.getElem?_cons_zero,
      Option.some_inj] at h1
    subst h0
    subst h1
    refine hasNonzeroConstCol_eq_false_of _ _ rest ?_
    intro cc hcc
    have hcc' : cc < f - 1 := by simpa using hcc
    rcases Nat.eq_zero_or_pos cc with hc0 | hcpos
    · subst hc0
      right
      rw [mapRange_getD _ _ _ hcc', mapRange_getD _ _ _ hcc']
      simp
    · left
      rw [mapRange_getD _ _ _ hcc']
      simp
      omega
  · -- f = 2: row 1 is the all-(-1) row
    have hf2 : f = 2 := by omega
    subst hf2
    have h1 : (dummyBase 2 n)[1]? = some (List.replicate 1 (-1 : ℚ)) := by
      rw [dummyBase_getElem? 2 n 1 (by omega) (by omega)]
      exact eyeBox_getElem?_last 2
    rw [hM] at h1
    simp only [List.getElem?_cons_succ, List.getElem?_cons_zero,
      Option.some_inj] at h1
    subst h0
    subst h1
    refine hasNonzeroConstCol_eq_false_of _ _ rest ?_
    intro cc hcc
    have hcc' : cc < 1 := by simpa using hcc
    have hc0 : cc = 0 := by omega
    subst hc0
    right
    rw [mapRange_getD _ _ _ (by omega : (0 : ℕ) < 1)]
    decide

theorem dummySmod_eq_map (f n : ℕ) (hf : 2 ≤ f) (hn : 2 ≤ n) :
    dummySmod f n = (dummyBase f n).map (fun r => 1 :: r) := by
  unfold dummySmod addConstant
  rw [dummyBase_no_skip f n hf hn]
  simp

/-! Claim C8: the dummy seasonal design matrix. -/

/-- C8, counterexample: at series length 1 (and frequency 2) the single
tiled row `[1]` is a constant nonzero column, so `statsmodels.add_constant`
with its default `has_constant = skip` does not prepend the intercept: the
built matrix is `[[1]]` with one column, not `frequency = 2` columns as the
claim states for every length `N`. -/
theorem c8_counterexample :
    build_seasonal_model dummyCfg trivCollab [(0 : ℚ)] = .ok (some [[1]])
    ∧ (([[(1 : ℚ)]] : List (List ℚ)).getD 0 []).length = 1
    ∧ dummyCfg.frequency = 2 := by
  refine ⟨rfl, rfl, rfl⟩

/-- C8 amended: for every frequency `f ≥ 2` and series length `N ≥ 2` (at
`N = 1` the intercept is skipped, see the counterexample), the dummy
seasonal design matrix has exactly `N` rows and `f` columns: a constant
intercept column prepended to the `f - 1` indicator columns obtained by
tiling the `f`-row block — the `(f-1) × (f-1)` identity stacked on a row of
all `-1` — truncated to exactly `N` rows; row `r` of the tiling is row
`r mod f` of the block. -/
theorem c8_dummy_design (cfg : Config) (c : Collab) (ti : List ℚ)
    (hty : cfg.season_type = "dummy") (hf : 2 ≤ cfg.frequency)
    (hN : 2 ≤ ti.length) :
    build_seasonal_model cfg c ti
      = .ok (some (dummySmod cfg.frequency ti.length))
    ∧ (dummySmod cfg.frequency ti.length).length = ti.length
    ∧ (∀ row ∈ dummySmod cfg.frequency ti.length, row.length = cfg.frequency)
    ∧ ∀ r, r < ti.length →
        ((dummySmod cfg.frequency ti.length).getD r []).getD 0 0 = 1
        ∧ ∀ cc, cc < cfg.frequency - 1 →
            ((dummySmod cfg.frequency ti.length).getD r []).getD (cc + 1) 0
              = if r % cfg.frequency = cc then 1
                else if r % cfg.frequency = cfg.frequency - 1 then -1
                else 0 := by
  have hf1 : 1 ≤ cfg.frequency := by omega
  have hmap := dummySmod_eq_map cfg.frequency ti.length hf hN
  have hblen := dummyBase_length cfg.frequency ti.length hf1
  refine ⟨?_, ?_, ?_, ?_⟩
  · simp [build_seasonal_model, hty]
  · rw [hmap, List.length_map, hblen]
  · intro row hrow
    rw [hmap, List.mem_map] at hrow
    obtain ⟨base, hbase, rfl⟩ := hrow
    have := eyeBox_row_length cfg.frequency base
      (dummyBase_mem cfg.frequency ti.length base hbase)
    simp [this]
    omega
  · intro r hr
    have hmod : r % cfg.frequency < cfg.frequency := Nat.mod_lt _ (by omega)
    have hex : ∃ base, (eyeBox cfg.frequency)[r % cfg.frequency]? = some base := by
      have hlt : r % cfg.frequency < (eyeBox cfg.frequency).length := by
        rw [eyeBox_length _ hf1]
        exact hmod
      exact ⟨_, List.getElem?_eq_getElem hlt⟩
    obtain ⟨base, hbase⟩ := hex
    have hrowD : (dummySmod cfg.frequency ti.length).getD r [] = 1 :: base := by
      rw [hmap, List.getD_eq_getElem?_getD, List.getElem?_map,
        dummyBase_getElem? cfg.frequency ti.length r hf1 hr, hbase]
      rfl
    rw [hrowD]
    refine ⟨rfl, ?_⟩
    intro cc hcc
    show base.getD cc 0 = _
    rcases Nat.lt_or_ge (r % cfg.frequency) (cfg.frequency - 1) with hlt | hge
    · -- an identity row of the block
      rw [eyeBox_getElem?_lt cfg.frequency _ hlt] at hbase
      obtain rfl : ((List.range (cfg.frequency - 1)).map
          (fun j => if r % cfg.frequency = j then (1 : ℚ) else 0)) = base :=
        Option.some_inj.mp hbase
      rw [mapRange_getD _ _ _ hcc]
      have hne : r % cfg.frequency ≠ cfg.frequency - 1 := by omega
      rcases eq_or_ne (r % cfg.frequency) cc with he | hne2
      · rw [if_pos he, if_pos he]
      · rw [if_neg hne2, if_neg hne2, if_neg hne]
    · -- the all-(-1) row of the block
      have heq : r % cfg.frequency = cfg.frequency - 1 := by omega
      rw [heq, eyeBox_getElem?_last cfg.frequency] at hbase
      obtain rfl : List.replicate (cfg.frequency - 1) (-1 : ℚ) = base :=
        Option.some_inj.mp hbase
      have hgetD : (List.replicate (cfg.frequency - 1) (-1 : ℚ)).getD cc 0 = -1 := by
        rw [List.getD_eq_getElem?_getD, List.getElem?_replicate, if_pos hcc]
        rfl
      rw [hgetD]
      have hne2 : r % cfg.frequency ≠ cc := by omega
      rw [if_neg hne2, if_pos heq]

/-- C8 witness: the amended theorem at frequency 2 and length 2: the built
matrix is the two-row dummy design, each row has the intercept 1 in front,
and the matrix has 2 rows. -/
theorem c8_dummy_design_witness :
    build_seasonal_model dummyCfg trivCollab [0, 1]
      = .ok (some (dummySmod dummyCfg.frequency ([0, 1] : List ℚ).length))
    ∧ (dummySmod dummyCfg.frequency ([0, 1] : List ℚ).length).length = 2
    ∧ ((dummySmod dummyCfg.frequency ([0, 1] : List ℚ).length).getD 0 []).getD 0 0 = 1 :=
  have h := c8_dummy_design dummyCfg trivCollab [0, 1] rfl (by decide) (by decide)
  ⟨h.1, h.2.1, (h.2.2.2 0 (by decide)).1⟩

end BFASTPython
